import Mathlib

/-!
Shallow embedding of the Open-MV face-recognition drafts (人脸识别-1..4.py).

Conventions of the embedding:
* Python float values are modelled exactly as rationals (`ℚ`); the one
  operation that leaves the rationals, the square root `** 0.5` inside the
  cosine similarity, is modelled as `Real.sqrt` on the coerced value, so the
  similarity itself lives in `ℝ`.
* A Python dict is an association list that keeps insertion order; key
  assignment overwrites in place when the key exists and appends otherwise.
* `time.ticks_ms()` is an explicit `clock : Nat` argument, `time.localtime()`
  an explicit string, and the success of the `json.dump` file write inside
  `save_db` an explicit `saveOk : Bool` argument; the content a save attempts
  to write is returned in a `writes` field so that persistence effects are
  visible in the model.
* The camera / detector / extractor collaborators are oracles: each loop
  iteration reads one element of an input trace carrying the detected faces,
  the button edges and the extractor result for that tick.  A finite trace
  models the snapshots that occur before a loop's timeout or exit.
-/

namespace FaceRec

/-- A face descriptor: ordered sequence of float components (人脸识别-3.py,
feature vectors returned by `extract_features`). -/
abbrev Descriptor := List ℚ

/-- A record of `UserManager.users` as built by `add_user` in 人脸识别-3.py
lines 188-197: fields `name`, `features`, `registered_at`, `samples_count`. -/
structure UserRecord where
  name : String
  features : Descriptor
  registered_at : String
  samples_count : Nat
deriving DecidableEq, Repr

/-- The in-memory store `self.users`: a Python dict from user id to record,
modelled as an insertion-ordered association list with unique keys. -/
abbrev Store := List (String × UserRecord)

/-- The keys of the store, in insertion order. -/
def Store.keys (s : Store) : List String := s.map Prod.fst

/-- Python dict assignment `d[k] = v`: overwrite in place when `k` is already
a key, append at the end otherwise. -/
def dictInsert (s : Store) (k : String) (v : UserRecord) : Store :=
  if (s.map Prod.fst).contains k then
    s.map (fun p => if p.1 = k then (k, v) else p)
  else
    s ++ [(k, v)]

/-- Result of `UserManager.add_user` (人脸识别-3.py lines 188-197): the pair
returned by the method, the store it leaves in memory, and the store contents
each `json.dump` call attempted to write. -/
structure AddResult where
  ok : Bool
  user_id : String
  users : Store
  writes : List Store
deriving DecidableEq, Repr

/-- `UserManager.add_user(name, features)` from 人脸识别-3.py lines 188-197:
`user_id = str(time.ticks_ms())`, insert the record (dict assignment, no
collision check), then `return self.save_db(), user_id`.  `save_db` writes the
current `self.users` and reports success; it never undoes the insertion. -/
def add_user (users : Store) (clock : Nat) (localtime : String)
    (name : String) (features : Descriptor) (saveOk : Bool) : AddResult :=
  let user_id := toString clock
  let users2 := dictInsert users user_id
    { name := name, features := features,
      registered_at := localtime, samples_count := 1 }
  { ok := saveOk, user_id := user_id, users := users2, writes := [users2] }

/-- `UserManager.delete_user(user_id)` from 人脸识别-3.py lines 199-204:
delete the key when present and save; report `False` otherwise. -/
def delete_user (users : Store) (user_id : String) (saveOk : Bool) :
    Bool × Store :=
  if (users.map Prod.fst).contains user_id then
    (saveOk, users.filter (fun p => p.1 ≠ user_id))
  else
    (false, users)

/-- `UserManager._cosine_similarity(feat1, feat2)` from 人脸识别-3.py lines
230-238 (identical in the other drafts): dot product over `zip`, norms by
`sum of squares ** 0.5`, result `0` when either norm is `0`, else
`dot / (norm_a * norm_b)`. -/
noncomputable def cosineSimilarity (feat1 feat2 : Descriptor) : ℝ :=
  let dot_product : ℚ := (List.zipWith (fun a b => a * b) feat1 feat2).sum
  let norm_a : ℝ := Real.sqrt (((feat1.map (fun a => a * a)).sum : ℚ) : ℝ)
  let norm_b : ℝ := Real.sqrt (((feat2.map (fun b => b * b)).sum : ℚ) : ℝ)
  if norm_a = 0 ∨ norm_b = 0 then 0
  else (dot_product : ℝ) / (norm_a * norm_b)

/-- One iteration of the matcher's loop body: replace the running best only
when the similarity is strictly greater. -/
noncomputable def matchStep (features : Descriptor)
    (acc : Option String × ℝ) (entry : String × UserRecord) :
    Option String × ℝ :=
  let similarity := cosineSimilarity features entry.2.features
  if similarity > acc.2 then (some entry.1, similarity) else acc

/-- `UserManager.find_user_by_features(features, threshold)` from
人脸识别-3.py lines 214-228: `None` for an empty probe, otherwise a fold over
the store in insertion order with `highest_similarity` starting at the
threshold and `best_match` starting at `None`. -/
noncomputable def find_user_by_features (users : Store)
    (features : Descriptor) (threshold : ℝ) : Option String :=
  if features = [] then none
  else (users.foldl (matchStep features) (none, threshold)).1

/-- The averaging of enrollment samples, 人脸识别-3.py line 427 (and line 581,
and 人脸识别-1.py line 328): component `i` of the result is
`sum(f[i] for f in samples) / len(samples)` for `i` ranging over the length
of the first sample. -/
def avgFeatures (samples : List Descriptor) : Descriptor :=
  (List.range (samples.headD []).length).map
    (fun i => (samples.map (fun f => f.getD i 0)).sum / (samples.length : ℚ))

/-- Config constants of 人脸识别-3.py lines 17-18. -/
def MIN_FACE_SIZE : Nat := 80

/-- Config constant `REGISTRATION_SAMPLES` of 人脸识别-3.py line 18. -/
def REGISTRATION_SAMPLES : Nat := 5

/-- A detected face bounding box `(x, y, w, h)`. -/
abbrev Rect := Nat × Nat × Nat × Nat

/-- The bounding area `f[2] * f[3]` used to select the largest face. -/
def rectArea (f : Rect) : Nat := f.2.2.1 * f.2.2.2

/-- `max(faces, key=lambda f: f[2] * f[3])` (人脸识别-3.py line 396): Python's
`max` keeps the current element unless a strictly larger key appears, so the
first of equal-area faces wins. -/
def maxFace (f : Rect) (fs : List Rect) : Rect :=
  fs.foldl (fun best x => if rectArea x > rectArea best then x else best) f

/-- What the collaborators deliver during one iteration of the sample
collection loop: the detected faces of the snapshot, the debounced edges of
the capture (up) and finish (back) buttons, and the extractor's output for
the selected face when the capture button was pressed. -/
structure CaptureTick where
  faces : List Rect
  upPressed : Bool
  backPressed : Bool
  extract : Option Descriptor
deriving DecidableEq, Repr

/-- One iteration of the collection loop body of `_registration_mode`
(人脸识别-3.py lines 392-414): returns the new sample list and whether the
`break` fired.  A too-small face hits `continue`, which skips the
finish-early check of line 413; a successful extraction appends (the
code tests the extractor result for truthiness, so an empty list is
rejected like `None`); the loop breaks when the back button is pressed and at
least one sample exists. -/
def collectStep (samples : List Descriptor) (t : CaptureTick) :
    List Descriptor × Bool :=
  match t.faces with
  | [] => (samples, t.backPressed && !samples.isEmpty)
  | f :: fs =>
    let face := maxFace f fs
    if t.upPressed then
      if face.2.2.1 < MIN_FACE_SIZE ∨ face.2.2.2 < MIN_FACE_SIZE then
        (samples, false)
      else
        let samples2 :=
          match t.extract with
          | some d => if d.isEmpty then samples else samples ++ [d]
          | none => samples
        (samples2, t.backPressed && !samples2.isEmpty)
    else
      (samples, t.backPressed && !samples.isEmpty)

/-- The collection loop `while len(samples) < REGISTRATION_SAMPLES`
(人脸识别-3.py lines 391-414) run over a finite trace of ticks: the loop also
ends when the trace is exhausted (the registration flow only continues past
the loop once it has ended). -/
def collectSamples : List CaptureTick → List Descriptor → List Descriptor
  | [], samples => samples
  | t :: rest, samples =>
    if samples.length < REGISTRATION_SAMPLES then
      let r := collectStep samples t
      if r.2 then r.1 else collectSamples rest r.1
    else samples

/-- What the collaborators deliver during one iteration of the liveness loop:
the detected faces, whether the eye cascade found eyes inside the first face,
and the cancel (back) button edge. -/
structure LiveTick where
  faces : List Rect
  eyes : Bool
  backPressed : Bool
deriving DecidableEq, Repr

/-- The body of `_liveness_detection` (人脸识别-3.py lines 443-461) iterated
over the ticks that occur inside the timeout window, threading the two flags
`eyes_detected` and `eyes_closed`: eyes seen on a face set the first flag;
a later face with no eyes sets the second and breaks; a back press breaks;
trace exhaustion is the timeout elapsing. -/
def livenessLoop : List LiveTick → Bool → Bool → Bool × Bool
  | [], eyes_detected, eyes_closed => (eyes_detected, eyes_closed)
  | t :: rest, eyes_detected, eyes_closed =>
    if t.faces.isEmpty then
      if t.backPressed then (eyes_detected, eyes_closed)
      else livenessLoop rest eyes_detected eyes_closed
    else
      if t.eyes && !eyes_detected then
        if t.backPressed then (true, eyes_closed)
        else livenessLoop rest true eyes_closed
      else if eyes_detected && !t.eyes then
        (eyes_detected, true)
      else
        if t.backPressed then (eyes_detected, eyes_closed)
        else livenessLoop rest eyes_detected eyes_closed

/-- `_liveness_detection` (人脸识别-3.py lines 437-463): run the loop from
both flags false and `return eyes_detected and eyes_closed`. -/
def livenessDetection (trace : List LiveTick) : Bool :=
  let r := livenessLoop trace false false
  r.1 && r.2

/-- How a run of `_registration_mode` ends. -/
inductive RegResult where
  | cancelled
  | noSamples
  | livenessFailed
  | registered (ok : Bool) (user_id : String)
deriving DecidableEq, Repr

/-- `_registration_mode` (人脸识别-3.py lines 376-435): name-entry cancel
aborts first; then the sample collection runs; no samples aborts; a failed
liveness check aborts; otherwise the element-wise mean of the samples is
committed through `add_user`.  Returns the in-memory store after the run, the
store contents written to persistent storage during the run, and the
outcome. -/
def registrationMode (users : Store) (name : String)
    (trace : List CaptureTick) (ltrace : List LiveTick)
    (clock : Nat) (localtime : String) (saveOk : Bool) :
    Store × List Store × RegResult :=
  if name = "" then (users, [], .cancelled)
  else
    let samples := collectSamples trace []
    if samples.isEmpty then (users, [], .noSamples)
    else if !livenessDetection ltrace then (users, [], .livenessFailed)
    else
      let avg_features := avgFeatures samples
      let r := add_user users clock localtime name avg_features saveOk
      (r.users, r.writes, .registered r.ok r.user_id)

/-- The commit step of `_recollect_user_features` (人脸识别-3.py lines
581-583): the record under `user_id` gets the averaged features and
`samples_count = len(samples)`, in place. -/
def recollectCommit (users : Store) (user_id : String)
    (samples : List Descriptor) : Store :=
  users.map (fun p =>
    if p.1 = user_id then
      (p.1, { p.2 with features := avgFeatures samples,
                       samples_count := samples.length })
    else p)

/-- `_recollect_user_features` (人脸识别-3.py lines 542-588): abort without
mutation when the user is missing or no sample was collected; otherwise
update the record in place and save.  Returns the store, the writes and
whether the save succeeded. -/
def recollectUserFeatures (users : Store) (user_id : String)
    (trace : List CaptureTick) (saveOk : Bool) :
    Store × List Store × Bool :=
  if (users.map Prod.fst).contains user_id then
    let samples := collectSamples trace []
    if samples.isEmpty then (users, [], false)
    else
      let users2 := recollectCommit users user_id samples
      (users2, [users2], saveOk)
  else (users, [], false)

/-- The JSON values `json.dump` can write for this program. -/
inductive Json where
  | str (s : String)
  | num (q : ℚ)
  | arr (xs : List Json)
  | obj (fields : List (String × Json))

/-- The JSON object `add_user` commits for one record (人脸识别-3.py lines
191-196): exactly the four fields `name` (string), `features` (numeric
array), `registered_at` (string) and `samples_count` (integer), in this
order. -/
def recordToJson (r : UserRecord) : Json :=
  .obj [("name", .str r.name),
        ("features", .arr (r.features.map .num)),
        ("registered_at", .str r.registered_at),
        ("samples_count", .num (r.samples_count : ℚ))]

/-- The whole file `save_db` writes: the mapping from user id to record
object (人脸识别-3.py lines 178-186). -/
def storeToJson (users : Store) : Json :=
  .obj (users.map (fun p => (p.1, recordToJson p.2)))

/-- Reading a numeric array back as a descriptor. -/
def descriptorOfJson : List Json → Option Descriptor
  | [] => some []
  | .num q :: rest => (descriptorOfJson rest).map (fun ds => q :: ds)
  | _ => none

/-- Reading a JSON number back as the integer count the program stores. -/
def natOfJsonNum (q : ℚ) : Option Nat :=
  if q.den = 1 ∧ 0 ≤ q.num then some q.num.toNat else none

/-- Reading one record object back, the way the program consumes a loaded
record: field accesses `user["name"]`, `user["features"]`,
`user["registered_at"]`, `user["samples_count"]` with the types the program
expects (人脸识别-3.py lines 369, 517-518, 582-583). -/
def recordOfJson : Json → Option UserRecord
  | .obj fields =>
    match fields.lookup "name", fields.lookup "features",
          fields.lookup "registered_at", fields.lookup "samples_count" with
    | some (.str n), some (.arr ds), some (.str ra), some (.num c) =>
      match descriptorOfJson ds, natOfJsonNum c with
      | some features, some count =>
        some { name := n, features := features,
               registered_at := ra, samples_count := count }
      | _, _ => none
    | _, _, _, _ => none
  | _ => none

/-- The field names of a record object. -/
def objKeys : Json → List String
  | .obj fields => fields.map Prod.fst
  | _ => []

/-! ### Concrete inputs shared by several scenarios -/

/-- A comfortably large detected face. -/
def bigFace : Rect := (0, 0, 100, 100)

/-- A capture tick that accepts one sample with descriptor `[1, 0, 0]`. -/
def capTick : CaptureTick :=
  { faces := [bigFace], upPressed := true, backPressed := false,
    extract := some [1, 0, 0] }

/-- A capture tick that only presses the finish (back) button. -/
def capDone : CaptureTick :=
  { faces := [], upPressed := false, backPressed := true, extract := none }

/-- A trace collecting three samples and then finishing early. -/
def capTraceC2 : List CaptureTick := [capTick, capTick, capTick, capDone]

/-- A liveness trace where eyes are seen on a face and then vanish. -/
def liveTraceOk : List LiveTick :=
  [{ faces := [bigFace], eyes := true, backPressed := false },
   { faces := [bigFace], eyes := false, backPressed := false }]

/-- The record stored for the looked-up user of the re-enrollment
scenarios. -/
def adaRec : UserRecord :=
  { name := "Ada", features := [1, 0, 0], registered_at := "t0",
    samples_count := 1 }

/-! ### Association-list helper lemmas -/

lemma mem_keys_of_lookup {s : Store} {k : String} {v : UserRecord}
    (h : s.lookup k = some v) : k ∈ s.map Prod.fst := by
  induction s with
  | nil => simp [List.lookup] at h
  | cons p t ih =>
    rcases p with ⟨k0, v0⟩
    by_cases hk : k = k0
    · simp [hk]
    · simp only [List.lookup, show (k == k0) = false by simpa using hk] at h
      simp [ih h]

lemma lookup_map_overwrite (s : Store) (k : String) (v : UserRecord)
    (h : k ∈ s.map Prod.fst) :
    (s.map (fun p => if p.1 = k then (k, v) else p)).lookup k = some v := by
  induction s with
  | nil => simp at h
  | cons p t ih =>
    rcases p with ⟨k0, v0⟩
    simp only [List.map_cons]
    by_cases hk : k0 = k
    · rw [if_pos hk]
      simp [List.lookup]
    · rw [if_neg hk]
      have hcons : k = k0 ∨ k ∈ t.map Prod.fst := by
        rw [List.map_cons, List.mem_cons] at h; exact h
      have hmem : k ∈ t.map Prod.fst := by
        rcases hcons with h1 | h1
        · exact absurd h1.symm hk
        · exact h1
      have hk2 : (k == k0) = false := by
        simpa using fun hkk => hk hkk.symm
      simpa [List.lookup, hk2] using ih hmem

lemma lookup_append_fresh (s : Store) (k : String) (v : UserRecord)
    (h : k ∉ s.map Prod.fst) :
    (s ++ [(k, v)]).lookup k = some v := by
  induction s with
  | nil => simp [List.lookup]
  | cons p t ih =>
    rcases p with ⟨k0, v0⟩
    have hk : (k == k0) = false := by
      simpa using fun hkk => h (by simp [hkk])
    have ht : k ∉ t.map Prod.fst := fun hm => h (by simp [hm])
    simpa [List.lookup, hk] using ih ht

lemma keys_dictInsert_of_mem (s : Store) (k : String) (v : UserRecord)
    (h : k ∈ s.map Prod.fst) :
    (dictInsert s k v).map Prod.fst = s.map Prod.fst := by
  unfold dictInsert
  rw [if_pos (List.elem_iff.mpr h)]
  rw [List.map_map]
  refine List.map_congr_left (fun p _ => ?_)
  by_cases hp : p.1 = k
  · simp [hp]
  · simp [hp]

lemma lookup_dictInsert (s : Store) (k : String) (v : UserRecord) :
    (dictInsert s k v).lookup k = some v := by
  unfold dictInsert
  by_cases h : (s.map Prod.fst).contains k
  · rw [if_pos h]
    exact lookup_map_overwrite s k v (by simpa using h)
  · rw [if_neg h]
    exact lookup_append_fresh s k v (by simpa using h)

lemma mem_keys_dictInsert (s : Store) (k : String) (v : UserRecord) :
    k ∈ (dictInsert s k v).map Prod.fst :=
  mem_keys_of_lookup (lookup_dictInsert s k v)

/-! ### C1: persist failure during add -/

/-- Claim C1, counterexample: with an empty store, clock 5 and a failing
persist, `add_user` reports failure but the generated id "5" is still a key
of the in-memory store after the call — the insertion is not reverted. -/
theorem C1_add_no_rollback_cex :
    (add_user [] 5 "t0" "Ada" [1] false).ok = false ∧
    (add_user [] 5 "t0" "Ada" [1] false).user_id ∈
      (add_user [] 5 "t0" "Ada" [1] false).users.map Prod.fst := by
  constructor
  · rfl
  · decide

/-- Claim C1, amended: when the synchronous persist performed by `add_user`
fails, the operation reports failure, but the in-memory insertion is NOT
reverted — the newly generated id remains a key of the store after the
call. -/
theorem C1_add_reports_failure_keeps_id (users : Store) (clock : Nat)
    (localtime name : String) (features : Descriptor) :
    (add_user users clock localtime name features false).ok = false ∧
    (add_user users clock localtime name features false).user_id ∈
      (add_user users clock localtime name features false).users.map
        Prod.fst := by
  refine ⟨rfl, ?_⟩
  exact mem_keys_dictInsert users (toString clock) _

/-! ### C5: id generation and collision behaviour -/

/-- Claim C5, counterexample: with a store already holding key "5" and clock
value 5, the id generated by `add_user` is a key already present at the
moment of insertion, and the existing record is silently overwritten. -/
theorem C5_id_collision_cex :
    (add_user [("5", ⟨"Old", [2], "t0", 4⟩)] 5 "t1" "New" [1] true).user_id ∈
      ([("5", ⟨"Old", [2], "t0", 4⟩)] : Store).map Prod.fst ∧
    (add_user [("5", ⟨"Old", [2], "t0", 4⟩)] 5 "t1" "New" [1] true).users =
      [("5", ⟨"New", [1], "t1", 1⟩)] := by
  constructor
  · decide
  · decide

/-- Claim C5, amended: `add_user` derives the id from the clock with no
collision check; whenever `str(clock)` is already a key of the store, the
existing record under that id is silently overwritten — the key list is
unchanged and the stored record becomes the newly built one. -/
theorem C5_collision_overwrites (users : Store) (clock : Nat)
    (localtime name : String) (features : Descriptor) (saveOk : Bool)
    (h : toString clock ∈ users.map Prod.fst) :
    (add_user users clock localtime name features saveOk).user_id =
      toString clock ∧
    (add_user users clock localtime name features saveOk).users.map
      Prod.fst = users.map Prod.fst ∧
    (add_user users clock localtime name features saveOk).users.lookup
      (toString clock) =
      some { name := name, features := features,
             registered_at := localtime, samples_count := 1 } := by
  refine ⟨rfl, ?_, ?_⟩
  · exact keys_dictInsert_of_mem users (toString clock) _ h
  · exact lookup_dictInsert users (toString clock) _

/-- Witness for C5: a concrete collision at clock 5 over a one-record
store. -/
theorem C5_collision_overwrites_witness :
    (add_user [("5", ⟨"Old", [2], "t0", 4⟩)] 5 "t1" "New" [1] true).user_id =
      "5" ∧
    (add_user [("5", ⟨"Old", [2], "t0", 4⟩)] 5 "t1" "New" [1] true).users.map
      Prod.fst = ["5"] ∧
    (add_user [("5", ⟨"Old", [2], "t0", 4⟩)] 5 "t1" "New" [1]
        true).users.lookup "5" =
      some { name := "New", features := [1],
             registered_at := "t1", samples_count := 1 } := by
  have h := C5_collision_overwrites [("5", ⟨"Old", [2], "t0", 4⟩)] 5 "t1"
    "New" [1] true (by decide)
  exact h

/-! ### C2: sample count of a committed enrollment -/

lemma lookup_recollectCommit (users : Store) (uid : String)
    (samples : List Descriptor) (rec : UserRecord)
    (h : users.lookup uid = some rec) :
    (recollectCommit users uid samples).lookup uid =
      some { rec with features := avgFeatures samples,
                      samples_count := samples.length } := by
  induction users with
  | nil => simp [List.lookup] at h
  | cons p t ih =>
    rcases p with ⟨k0, v0⟩
    by_cases hk : uid = k0
    · have hb : (uid == k0) = true := by simpa using hk
      have hv : v0 = rec := by
        simpa [List.lookup, hb] using h
      unfold recollectCommit
      simp only [List.map_cons]
      rw [if_pos hk.symm]
      simp [List.lookup, hb, hv]
    · have hb : (uid == k0) = false := by simpa using hk
      have ht : t.lookup uid = some rec := by
        simpa [List.lookup, hb] using h
      unfold recollectCommit
      simp only [List.map_cons]
      rw [if_neg (fun hkk => hk hkk.symm)]
      have hrec := ih ht
      unfold recollectCommit at hrec
      simpa [List.lookup, hb] using hrec

/-- Claim C2, counterexample: a new-user enrollment that commits with three
accepted samples stores a record whose `samples_count` is 1, not 3 —
`add_user` hardcodes the count. -/
theorem C2_sample_count_cex :
    (collectSamples capTraceC2 []).length = 3 ∧
    (registrationMode [] "Ada" capTraceC2 liveTraceOk 7 "t0" true).1 =
      [("7", { name := "Ada", features := [1, 0, 0],
               registered_at := "t0", samples_count := 1 })] := by
  have hcol : collectSamples capTraceC2 [] =
      [[1, 0, 0], [1, 0, 0], [1, 0, 0]] := by decide
  have havg : avgFeatures [[1, 0, 0], [1, 0, 0], [1, 0, 0]] = [1, 0, 0] := by
    unfold avgFeatures
    norm_num [List.range_succ]
  have hlive : livenessDetection liveTraceOk = true := by decide
  refine ⟨by rw [hcol]; rfl, ?_⟩
  simp only [registrationMode, hcol, havg, hlive]
  norm_num [add_user, dictInsert]
  rw [if_neg (show ¬("Ada" = "") by decide)]
  rfl

/-- Claim C2, amended: a re-enrollment that commits with N accepted samples
stores `samples_count = N`, but a new-user enrollment commits through
`add_user`, which stores `samples_count = 1` regardless of how many samples
were averaged. -/
theorem C2_sample_count_split (users users2 : Store) (uid : String)
    (rec : UserRecord) (trace : List CaptureTick) (saveOk ok : Bool)
    (clock : Nat) (localtime name : String) (samples : List Descriptor)
    (hu : users.lookup uid = some rec)
    (hs : ¬(collectSamples trace []).isEmpty) :
    (recollectUserFeatures users uid trace saveOk).1.lookup uid =
      some { rec with features := avgFeatures (collectSamples trace []),
                      samples_count := (collectSamples trace []).length } ∧
    (add_user users2 clock localtime name (avgFeatures samples) ok).users.lookup
      (toString clock) =
      some { name := name, features := avgFeatures samples,
             registered_at := localtime, samples_count := 1 } := by
  constructor
  · unfold recollectUserFeatures
    rw [if_pos (List.elem_iff.mpr (mem_keys_of_lookup hu))]
    rw [if_neg hs]
    exact lookup_recollectCommit users uid _ rec hu
  · exact lookup_dictInsert users2 (toString clock) _

/-- Witness for C2: a three-sample re-enrollment of Ada and a one-sample
new-user enrollment, at concrete inputs. -/
theorem C2_sample_count_split_witness :
    (recollectUserFeatures [("u1", adaRec)] "u1" capTraceC2 true).1.lookup
      "u1" =
      some { adaRec with
               features := avgFeatures (collectSamples capTraceC2 []),
               samples_count := (collectSamples capTraceC2 []).length } ∧
    (add_user [] 9 "t1" "Bob" (avgFeatures [[2, 0]]) true).users.lookup
      (toString 9) =
      some { name := "Bob", features := avgFeatures [[2, 0]],
             registered_at := "t1", samples_count := 1 } := by
  exact C2_sample_count_split [("u1", adaRec)] [] "u1" adaRec capTraceC2
    true true 9 "t1" "Bob" [[2, 0]] (by decide) (by decide)

/-! ### C4: persisted record layout -/

lemma descriptorOfJson_map (ds : Descriptor) :
    descriptorOfJson (ds.map Json.num) = some ds := by
  induction ds with
  | nil => rfl
  | cons d t ih => simp [descriptorOfJson, ih]

/-- Claim C4, counterexample: the record object committed by `add_user` has
the field list `name, features, registered_at, samples_count` — there is no
`descriptor` field and no `sample_count` field, so the layout the claim
states is not what is written. -/
theorem C4_record_fields_cex :
    objKeys (recordToJson ⟨"Ada", [1], "t0", 3⟩) =
      ["name", "features", "registered_at", "samples_count"] ∧
    "descriptor" ∉ objKeys (recordToJson ⟨"Ada", [1], "t0", 3⟩) ∧
    "sample_count" ∉ objKeys (recordToJson ⟨"Ada", [1], "t0", 3⟩) := by
  refine ⟨rfl, by decide, by decide⟩

/-- Claim C4, amended: every record committed by `add_user` is written as an
object with exactly the fields `name` (string), `features` (numeric array),
`registered_at` (string) and `samples_count` (integer), and these field
names and types round-trip losslessly through save and load. -/
theorem C4_record_fields_roundtrip (r : UserRecord) :
    objKeys (recordToJson r) =
      ["name", "features", "registered_at", "samples_count"] ∧
    recordOfJson (recordToJson r) = some r := by
  constructor
  · rfl
  · unfold recordToJson recordOfJson
    simp [List.lookup, descriptorOfJson_map, natOfJsonNum]

/-! ### C8: aborted enrollment leaves the store untouched -/

/-- Claim C8, confirmed: whenever a registration run ends before the commit
step — the name entry was cancelled, no accepted sample was collected, or
the liveness check failed — the in-memory store is unchanged and nothing at
all is written to persistent storage. -/
theorem C8_abort_frame (users : Store) (name : String)
    (trace : List CaptureTick) (ltrace : List LiveTick) (clock : Nat)
    (localtime : String) (saveOk : Bool)
    (h : (registrationMode users name trace ltrace clock localtime
            saveOk).2.2 = RegResult.cancelled ∨
         (registrationMode users name trace ltrace clock localtime
            saveOk).2.2 = RegResult.noSamples ∨
         (registrationMode users name trace ltrace clock localtime
            saveOk).2.2 = RegResult.livenessFailed) :
    (registrationMode users name trace ltrace clock localtime saveOk).1 =
      users ∧
    (registrationMode users name trace ltrace clock localtime saveOk).2.1 =
      [] := by
  simp only [registrationMode] at h ⊢
  split_ifs at h ⊢
  · exact ⟨rfl, rfl⟩
  · exact ⟨rfl, rfl⟩
  · exact ⟨rfl, rfl⟩
  · rcases h with h | h | h <;> simp at h

/-- Witness for C8: a cancelled name entry over a one-record store. -/
theorem C8_abort_frame_witness :
    (registrationMode [("u1", adaRec)] "" [] [] 0 "t" true).1 =
      [("u1", adaRec)] ∧
    (registrationMode [("u1", adaRec)] "" [] [] 0 "t" true).2.1 = [] :=
  C8_abort_frame [("u1", adaRec)] "" [] [] 0 "t" true (Or.inl (by decide))

/-! ### C6: the committed descriptor is the element-wise mean -/

lemma getD_map_range (g : Nat → ℚ) (n i : Nat) (h : i < n) :
    ((List.range n).map g).getD i 0 = g i := by
  rw [List.getD_eq_getElem?_getD, List.getElem?_map, List.getElem?_range h]
  rfl

/-- Claim C6, confirmed: for samples that are all of length n (at least one
sample), the averaged descriptor has length n and its component i equals the
sum of the samples' components i divided by the number of samples — the
element-wise arithmetic mean. -/
theorem C6_average_is_mean (samples : List Descriptor) (n : Nat)
    (hne : samples ≠ []) (hlen : ∀ f ∈ samples, f.length = n) :
    (avgFeatures samples).length = n ∧
    ∀ i, i < n → (avgFeatures samples).getD i 0 =
      (samples.map (fun f => f.getD i 0)).sum / (samples.length : ℚ) := by
  have hhead : (samples.headD []).length = n := by
    cases samples with
    | nil => exact absurd rfl hne
    | cons f t => exact hlen f (List.mem_cons_self f t)
  constructor
  · simpa [avgFeatures] using hhead
  · intro i hi
    unfold avgFeatures
    rw [hhead]
    exact getD_map_range _ n i hi

/-- Witness for C6: three identical samples `[1, 0, 0]`. -/
theorem C6_average_is_mean_witness :
    (avgFeatures [[1, 0, 0], [1, 0, 0], [1, 0, 0]]).length = 3 ∧
    ∀ i, i < 3 → (avgFeatures [[1, 0, 0], [1, 0, 0], [1, 0, 0]]).getD i 0 =
      (([[1, 0, 0], [1, 0, 0], [1, 0, 0]] : List Descriptor).map
        (fun f => f.getD i 0)).sum /
      (([[1, 0, 0], [1, 0, 0], [1, 0, 0]] : List Descriptor).length : ℚ) :=
  C6_average_is_mean [[1, 0, 0], [1, 0, 0], [1, 0, 0]] 3 (by decide)
    (by decide)

/-! ### C9: the liveness gate passes only on eyes-then-no-eyes -/

lemma livenessLoop_pass (trace : List LiveTick) :
    ∀ det : Bool, (livenessLoop trace det false).2 = true →
      ∃ j, ∃ hj : j < trace.length,
        (trace.get ⟨j, hj⟩).faces ≠ [] ∧ (trace.get ⟨j, hj⟩).eyes = false ∧
        (det = true ∨ ∃ i, ∃ hi : i < trace.length, i < j ∧
          (trace.get ⟨i, hi⟩).faces ≠ [] ∧
          (trace.get ⟨i, hi⟩).eyes = true) := by
  induction trace with
  | nil =>
    intro det h
    simp [livenessLoop] at h
  | cons t rest ih =>
    intro det h
    unfold livenessLoop at h
    by_cases hf : t.faces.isEmpty
    · rw [if_pos hf] at h
      by_cases hb : t.backPressed
      · rw [if_pos hb] at h; simp at h
      · rw [if_neg hb] at h
        rcases ih det h with ⟨j, hj, h1, h2, h3⟩
        refine ⟨j + 1, Nat.succ_lt_succ hj, by simpa using h1,
          by simpa using h2, ?_⟩
        rcases h3 with h3 | ⟨i, hi, hij, h4, h5⟩
        · exact Or.inl h3
        · exact Or.inr ⟨i + 1, Nat.succ_lt_succ hi, Nat.succ_lt_succ hij,
            by simpa using h4, by simpa using h5⟩
    · rw [if_neg hf] at h
      by_cases he : (t.eyes && !det) = true
      · rw [if_pos he] at h
        by_cases hb : t.backPressed
        · rw [if_pos hb] at h; simp at h
        · rw [if_neg hb] at h
          rcases ih true h with ⟨j, hj, h1, h2, _⟩
          refine ⟨j + 1, Nat.succ_lt_succ hj, by simpa using h1,
            by simpa using h2,
            Or.inr ⟨0, Nat.succ_pos _, Nat.succ_pos _, ?_, ?_⟩⟩
          · simpa [List.isEmpty_iff] using hf
          · simpa using ((Bool.and_eq_true _ _).mp he).1
      · rw [if_neg he] at h
        by_cases hd : (det && !t.eyes) = true
        · rw [if_pos hd] at h
          refine ⟨0, Nat.succ_pos _, ?_, ?_, Or.inl ?_⟩
          · simpa [List.isEmpty_iff] using hf
          · simpa using ((Bool.and_eq_true _ _).mp hd).2
          · exact ((Bool.and_eq_true _ _).mp hd).1
        · rw [if_neg hd] at h
          by_cases hb : t.backPressed
          · rw [if_pos hb] at h; simp at h
          · rw [if_neg hb] at h
            rcases ih det h with ⟨j, hj, h1, h2, h3⟩
            refine ⟨j + 1, Nat.succ_lt_succ hj, by simpa using h1,
              by simpa using h2, ?_⟩
            rcases h3 with h3 | ⟨i, hi, hij, h4, h5⟩
            · exact Or.inl h3
            · exact Or.inr ⟨i + 1, Nat.succ_lt_succ hi,
                Nat.succ_lt_succ hij, by simpa using h4, by simpa using h5⟩

/-- Claim C9, confirmed: the liveness check returns PASSED only when, among
the snapshots inside the timeout window, eyes were observed on a detected
face at some tick i and observed absent on a detected face at a later tick
j; on every trace without that presence-then-absence sequence — in
particular whenever the timeout elapses first — it returns FAILED. -/
theorem C9_liveness_pass_requires_blink (trace : List LiveTick)
    (h : livenessDetection trace = true) :
    ∃ i j, ∃ hi : i < trace.length, ∃ hj : j < trace.length, i < j ∧
      (trace.get ⟨i, hi⟩).faces ≠ [] ∧ (trace.get ⟨i, hi⟩).eyes = true ∧
      (trace.get ⟨j, hj⟩).faces ≠ [] ∧ (trace.get ⟨j, hj⟩).eyes = false := by
  have h2 : (livenessLoop trace false false).2 = true := by
    unfold livenessDetection at h
    exact ((Bool.and_eq_true _ _).mp h).2
  rcases livenessLoop_pass trace false h2 with ⟨j, hj, h1, h2e, h3⟩
  rcases h3 with h3 | ⟨i, hi, hij, h4, h5⟩
  · exact absurd h3 (by simp)
  · exact ⟨i, j, hi, hj, hij, h4, h5, h1, h2e⟩

/-- Witness for C9: the two-tick trace where eyes appear and then vanish. -/
theorem C9_liveness_pass_requires_blink_witness :
    ∃ i j, ∃ hi : i < liveTraceOk.length, ∃ hj : j < liveTraceOk.length,
      i < j ∧
      (liveTraceOk.get ⟨i, hi⟩).faces ≠ [] ∧
      (liveTraceOk.get ⟨i, hi⟩).eyes = true ∧
      (liveTraceOk.get ⟨j, hj⟩).faces ≠ [] ∧
      (liveTraceOk.get ⟨j, hj⟩).eyes = false :=
  C9_liveness_pass_requires_blink liveTraceOk (by decide)

/-! ### C7: algebra of the cosine similarity -/

lemma map_sq_sum_eq_range (a : List ℚ) :
    (a.map (fun x => x * x)).sum =
      ∑ i in Finset.range a.length, a.getD i 0 * a.getD i 0 := by
  induction a with
  | nil => simp
  | cons x t ih =>
    rw [List.map_cons, List.sum_cons, List.length_cons,
      Finset.sum_range_succ']
    simp only [List.getD_cons_succ, List.getD_cons_zero]
    rw [← ih]
    ring

lemma zip_mul_sum_eq_range (a : List ℚ) :
    ∀ (b : List ℚ) (n : Nat), a.length = n → b.length = n →
      (List.zipWith (fun x y => x * y) a b).sum =
        ∑ i in Finset.range n, a.getD i 0 * b.getD i 0 := by
  induction a with
  | nil =>
    intro b n ha _
    rw [← ha]
    simp
  | cons x t ih =>
    intro b n ha hb
    cases b with
    | nil =>
      rw [← hb] at ha
      simp at ha
    | cons y s =>
      cases n with
      | zero => simp at ha
      | succ m =>
        have ha2 : t.length = m := Nat.succ_injective ha
        have hb2 : s.length = m := Nat.succ_injective hb
        rw [List.zipWith_cons_cons, List.sum_cons, Finset.sum_range_succ']
        simp only [List.getD_cons_succ, List.getD_cons_zero]
        rw [← ih s m ha2 hb2]
        ring

lemma sumsq_nonneg (a : List ℚ) : 0 ≤ (a.map (fun x => x * x)).sum := by
  rw [map_sq_sum_eq_range]
  exact Finset.sum_nonneg (fun i _ => mul_self_nonneg _)

lemma dot_sq_le_sumsq_mul (a b : List ℚ) (hab : a.length = b.length) :
    ((List.zipWith (fun x y => x * y) a b).sum) ^ 2 ≤
      (a.map (fun x => x * x)).sum * (b.map (fun x => x * x)).sum := by
  rw [zip_mul_sum_eq_range a b b.length hab rfl, map_sq_sum_eq_range,
    map_sq_sum_eq_range, hab]
  have hcs := Finset.sum_mul_sq_le_sq_mul_sq (Finset.range b.length)
    (fun i => a.getD i 0) (fun i => b.getD i 0)
  simpa [pow_two] using hcs

/-- Claim C7, confirmed: for equal-length descriptors the cosine similarity
is symmetric, bounded in [-1, 1], and exactly 0 whenever either vector has
zero norm (the zero-norm guard means no division by zero is performed). -/
theorem C7_cosine_algebra (a b : List ℚ) (hab : a.length = b.length) :
    cosineSimilarity a b = cosineSimilarity b a ∧
    -1 ≤ cosineSimilarity a b ∧ cosineSimilarity a b ≤ 1 ∧
    (((a.map (fun x => x * x)).sum = 0 ∨
      (b.map (fun x => x * x)).sum = 0) → cosineSimilarity a b = 0) := by
  have hzip : (List.zipWith (fun x y => x * y) a b).sum =
      (List.zipWith (fun x y => x * y) b a).sum := by
    rw [List.zipWith_comm_of_comm (fun x y => x * y)
      (fun x y => mul_comm x y)]
  have hsym : cosineSimilarity a b = cosineSimilarity b a := by
    simp only [cosineSimilarity]
    split_ifs with h1 h2 h2
    · rfl
    · exact absurd h1.symm h2
    · exact absurd h2.symm h1
    · rw [hzip, mul_comm]
  have hbnd : -1 ≤ cosineSimilarity a b ∧ cosineSimilarity a b ≤ 1 := by
    simp only [cosineSimilarity]
    by_cases h : Real.sqrt (((a.map (fun x => x * x)).sum : ℚ) : ℝ) = 0 ∨
        Real.sqrt (((b.map (fun x => x * x)).sum : ℚ) : ℝ) = 0
    · rw [if_pos h]
      norm_num
    · rw [if_neg h]
      push_neg at h
      have hsa0 : (0 : ℝ) ≤ (((a.map (fun x => x * x)).sum : ℚ) : ℝ) := by
        exact_mod_cast sumsq_nonneg a
      have hna : 0 < Real.sqrt (((a.map (fun x => x * x)).sum : ℚ) : ℝ) :=
        lt_of_le_of_ne (Real.sqrt_nonneg _) (Ne.symm h.1)
      have hnb : 0 < Real.sqrt (((b.map (fun x => x * x)).sum : ℚ) : ℝ) :=
        lt_of_le_of_ne (Real.sqrt_nonneg _) (Ne.symm h.2)
      have hcs : (((List.zipWith (fun x y => x * y) a b).sum : ℚ) : ℝ) ^ 2 ≤
          (((a.map (fun x => x * x)).sum : ℚ) : ℝ) *
          (((b.map (fun x => x * x)).sum : ℚ) : ℝ) := by
        have hq := dot_sq_le_sumsq_mul a b hab
        calc (((List.zipWith (fun x y => x * y) a b).sum : ℚ) : ℝ) ^ 2
            = (((List.zipWith (fun x y => x * y) a b).sum ^ 2 : ℚ) : ℝ) := by
              push_cast; ring
          _ ≤ (((a.map (fun x => x * x)).sum *
                (b.map (fun x => x * x)).sum : ℚ) : ℝ) := by
              exact_mod_cast hq
          _ = _ := by push_cast; ring
      have habs : |(((List.zipWith (fun x y => x * y) a b).sum : ℚ) : ℝ)| ≤
          Real.sqrt (((a.map (fun x => x * x)).sum : ℚ) : ℝ) *
          Real.sqrt (((b.map (fun x => x * x)).sum : ℚ) : ℝ) := by
        rw [← Real.sqrt_mul hsa0, ← Real.sqrt_sq_eq_abs]
        exact Real.sqrt_le_sqrt hcs
      have hpos : 0 < Real.sqrt (((a.map (fun x => x * x)).sum : ℚ) : ℝ) *
          Real.sqrt (((b.map (fun x => x * x)).sum : ℚ) : ℝ) :=
        mul_pos hna hnb
      have hone : |(((List.zipWith (fun x y => x * y) a b).sum : ℚ) : ℝ) /
          (Real.sqrt (((a.map (fun x => x * x)).sum : ℚ) : ℝ) *
           Real.sqrt (((b.map (fun x => x * x)).sum : ℚ) : ℝ))| ≤ 1 := by
        rw [abs_div, abs_of_pos hpos, div_le_one hpos]
        exact habs
      exact abs_le.mp hone
  have hzero : ((a.map (fun x => x * x)).sum = 0 ∨
      (b.map (fun x => x * x)).sum = 0) → cosineSimilarity a b = 0 := by
    intro h
    rcases h with h | h
    · simp only [cosineSimilarity]
      rw [if_pos (Or.inl (by rw [h]; simp))]
    · simp only [cosineSimilarity]
      rw [if_pos (Or.inr (by rw [h]; simp))]
  exact ⟨hsym, hbnd.1, hbnd.2, hzero⟩

/-- Witness for C7: the orthogonal unit descriptors `[1, 0]` and `[0, 1]`. -/
theorem C7_cosine_algebra_witness :
    cosineSimilarity [1, 0] [0, 1] = cosineSimilarity [0, 1] [1, 0] ∧
    -1 ≤ cosineSimilarity [1, 0] [0, 1] ∧
    cosineSimilarity [1, 0] [0, 1] ≤ 1 ∧
    (((([1, 0] : List ℚ).map (fun x => x * x)).sum = 0 ∨
      (([0, 1] : List ℚ).map (fun x => x * x)).sum = 0) →
      cosineSimilarity [1, 0] [0, 1] = 0) :=
  C7_cosine_algebra [1, 0] [0, 1] (by decide)

/-! ### C3 and C10: the matcher's threshold and tie-break discipline -/

lemma matchFold_sound (features : Descriptor) (l : Store) :
    ∀ acc : Option String × ℝ,
      l.foldl (matchStep features) acc = acc ∨
      ∃ u rec, (u, rec) ∈ l ∧
        (l.foldl (matchStep features) acc).1 = some u ∧
        (l.foldl (matchStep features) acc).2 =
          cosineSimilarity features rec.features ∧
        acc.2 < (l.foldl (matchStep features) acc).2 := by
  induction l with
  | nil => intro acc; exact Or.inl rfl
  | cons e t ih =>
    intro acc
    rw [List.foldl_cons]
    by_cases h : cosineSimilarity features e.2.features > acc.2
    · have hstep : matchStep features acc e =
          (some e.1, cosineSimilarity features e.2.features) := by
        simp only [matchStep]
        rw [if_pos h]
      rw [hstep]
      rcases ih (some e.1, cosineSimilarity features e.2.features) with
        h1 | ⟨u, rec, hmem, h2, h3, h4⟩
      · right
        refine ⟨e.1, e.2, List.mem_cons_self e t, ?_, ?_, ?_⟩
        · rw [h1]
        · rw [h1]
        · rw [h1]; exact h
      · right
        exact ⟨u, rec, List.mem_cons_of_mem e hmem, h2, h3, lt_trans h h4⟩
    · have hstep : matchStep features acc e = acc := by
        simp only [matchStep]
        rw [if_neg h]
      rw [hstep]
      rcases ih acc with h1 | ⟨u, rec, hmem, h2, h3, h4⟩
      · exact Or.inl h1
      · exact Or.inr ⟨u, rec, List.mem_cons_of_mem e hmem, h2, h3, h4⟩

lemma matchFold_le_stays (features : Descriptor) (l : Store) :
    ∀ acc : Option String × ℝ,
      (∀ e ∈ l, cosineSimilarity features e.2.features ≤ acc.2) →
      l.foldl (matchStep features) acc = acc := by
  induction l with
  | nil => intro acc _; rfl
  | cons e t ih =>
    intro acc hall
    rw [List.foldl_cons]
    have hstep : matchStep features acc e = acc := by
      simp only [matchStep]
      rw [if_neg (not_lt.mpr (hall e (List.mem_cons_self e t)))]
    rw [hstep]
    exact ih acc (fun x hx => hall x (List.mem_cons_of_mem e hx))

lemma matchFold_lt_bound (features : Descriptor) (l : Store) :
    ∀ (acc : Option String × ℝ) (c : ℝ), acc.2 < c →
      (∀ e ∈ l, cosineSimilarity features e.2.features < c) →
      (l.foldl (matchStep features) acc).2 < c := by
  induction l with
  | nil => intro acc c hc _; simpa using hc
  | cons e t ih =>
    intro acc c hc hall
    rw [List.foldl_cons]
    refine ih _ c ?_ (fun x hx => hall x (List.mem_cons_of_mem e hx))
    simp only [matchStep]
    split_ifs with h
    · exact hall e (List.mem_cons_self e t)
    · exact hc

/-- Claim C3, confirmed: whenever the matcher returns an id, some record in
the store carries that id and its cosine similarity to the probe is strictly
greater than the threshold — a similarity equal to or below the threshold is
never matched. -/
theorem C3_match_strictly_above_threshold (users : Store)
    (features : Descriptor) (threshold : ℝ) (uid : String)
    (h : find_user_by_features users features threshold = some uid) :
    ∃ rec, (uid, rec) ∈ users ∧
      cosineSimilarity features rec.features > threshold := by
  unfold find_user_by_features at h
  by_cases hf : features = []
  · rw [if_pos hf] at h
    exact absurd h (by simp)
  · rw [if_neg hf] at h
    rcases matchFold_sound features users (none, threshold) with
      h1 | ⟨u, rec, hmem, h2, h3, h4⟩
    · rw [h1] at h
      exact absurd h (by simp)
    · rw [h2] at h
      have huid : u = uid := by
        injection h
      subst huid
      refine ⟨rec, hmem, ?_⟩
      rw [← h3]
      exact h4

/-- Evaluation of the matcher on the one-record scenario store. -/
lemma cosSim_unit : cosineSimilarity [1, 0, 0] [1, 0, 0] = 1 := by
  simp only [cosineSimilarity]
  norm_num [Real.sqrt_one]

lemma find_unit :
    find_user_by_features [("u1", adaRec)] [1, 0, 0] (1 / 2) = some "u1" := by
  unfold find_user_by_features
  rw [if_neg (by decide : ¬(([1, 0, 0] : Descriptor) = []))]
  rw [List.foldl_cons, List.foldl_nil]
  have hstep : matchStep [1, 0, 0] (none, 1 / 2) ("u1", adaRec) =
      (some "u1", 1) := by
    simp only [matchStep, adaRec, cosSim_unit]
    norm_num
  rw [hstep]

/-- Witness for C3: probe `[1, 0, 0]` against Ada's record at threshold
0.5. -/
theorem C3_match_strictly_above_threshold_witness :
    ∃ rec, ("u1", rec) ∈ ([("u1", adaRec)] : Store) ∧
      cosineSimilarity [1, 0, 0] rec.features > (1 / 2 : ℝ) :=
  C3_match_strictly_above_threshold [("u1", adaRec)] [1, 0, 0] (1 / 2) "u1"
    find_unit

/-- Claim C10, confirmed: when a record strictly beats the threshold, every
record before it in insertion order is strictly below its similarity and
every record after it is at most its similarity (covering ties for the
maximum), the matcher returns that first record's id — the running maximum
is replaced only on strictly greater similarity. -/
theorem C10_first_best_wins (l1 l2 : Store) (u : String) (rec : UserRecord)
    (features : Descriptor) (threshold : ℝ)
    (hne : features ≠ [])
    (ht : threshold < cosineSimilarity features rec.features)
    (h1 : ∀ e ∈ l1, cosineSimilarity features e.2.features <
            cosineSimilarity features rec.features)
    (h2 : ∀ e ∈ l2, cosineSimilarity features e.2.features ≤
            cosineSimilarity features rec.features) :
    find_user_by_features (l1 ++ (u, rec) :: l2) features threshold =
      some u := by
  unfold find_user_by_features
  rw [if_neg hne]
  rw [List.foldl_append, List.foldl_cons]
  have hacc : (l1.foldl (matchStep features) (none, threshold)).2 <
      cosineSimilarity features rec.features :=
    matchFold_lt_bound features l1 (none, threshold)
      (cosineSimilarity features rec.features) ht h1
  have hstep : matchStep features
      (l1.foldl (matchStep features) (none, threshold)) (u, rec) =
      (some u, cosineSimilarity features rec.features) := by
    simp only [matchStep]
    rw [if_pos hacc]
  rw [hstep]
  rw [matchFold_le_stays features l2
    (some u, cosineSimilarity features rec.features) h2]

/-- Witness for C10: two records tied at similarity 1; the first one in
insertion order is returned. -/
theorem C10_first_best_wins_witness :
    find_user_by_features [("u1", adaRec), ("u2", adaRec)] [1, 0, 0]
      (1 / 2) = some "u1" := by
  have h := C10_first_best_wins [] [("u2", adaRec)] "u1" adaRec [1, 0, 0]
    (1 / 2)
    (by decide)
    (by show (1 / 2 : ℝ) < cosineSimilarity [1, 0, 0] [1, 0, 0]
        rw [cosSim_unit]; norm_num)
    (by intro e he; simp at he)
    (by intro e he
        have he2 : e = ("u2", adaRec) := by simpa using he
        rw [he2])
  simpa using h

end FaceRec
